import Mathlib

/-!
Shallow embedding of the game prototype (files `src/main.rs`, `src/camera.rs`,
`src/controls.rs`) over the reals.  The engine math types (`Vec2`, `Vec3`,
`Quat`, `Mat3` from glam/bevy) are modelled with real-number structures;
`f32` arithmetic is modelled by exact real arithmetic.  Quaternions are
Mathlib quaternions; `Quat * Vec3` (rotation of a vector) is conjugation
`q v q∗`, which is exactly glam's `mul_vec3` formula.  Systems that
`expect`/`unwrap` singleton ECS queries are modelled as `Option`-valued
functions on the query result lists, `none` standing for the panic.
-/

namespace Game

open Real

/-- glam `Vec2` with real components. -/
structure Vec2 where
  x : ℝ
  y : ℝ

/-- glam `Vec3` with real components. -/
structure Vec3 where
  x : ℝ
  y : ℝ
  z : ℝ

instance : Add Vec2 where
  add a b := ⟨a.x + b.x, a.y + b.y⟩

def Vec2.zero : Vec2 := ⟨0, 0⟩

/-- glam `Vec2::length_squared` (dot of the vector with itself). -/
def Vec2.length_squared (v : Vec2) : ℝ := v.x * v.x + v.y * v.y

instance : Add Vec3 where
  add a b := ⟨a.x + b.x, a.y + b.y, a.z + b.z⟩

instance : Sub Vec3 where
  sub a b := ⟨a.x - b.x, a.y - b.y, a.z - b.z⟩

instance : Neg Vec3 where
  neg a := ⟨-a.x, -a.y, -a.z⟩

/-- Scalar multiplication `v * c` on glam `Vec3`. -/
def Vec3.scale (v : Vec3) (c : ℝ) : Vec3 := ⟨v.x * c, v.y * c, v.z * c⟩

def Vec3.zero : Vec3 := ⟨0, 0, 0⟩

/-- glam `Vec3::length_squared`. -/
def Vec3.length_squared (v : Vec3) : ℝ := v.x * v.x + v.y * v.y + v.z * v.z

/-- Euclidean distance between two points, `(a - b).length()` in glam. -/
noncomputable def Vec3.dist (a b : Vec3) : ℝ := Real.sqrt ((a - b).length_squared)

/-- bevy/glam `Quat`, modelled as a Mathlib real quaternion. -/
abbrev Quat := Quaternion ℝ

/-- glam `Quat::from_rotation_x(angle)`: unit quaternion for a rotation of
`angle` radians about the x axis. -/
noncomputable def fromRotationX (angle : ℝ) : Quat :=
  ⟨Real.cos (angle / 2), Real.sin (angle / 2), 0, 0⟩

/-- glam `Quat::from_rotation_y(angle)`. -/
noncomputable def fromRotationY (angle : ℝ) : Quat :=
  ⟨Real.cos (angle / 2), 0, Real.sin (angle / 2), 0⟩

/-- glam `Quat::from_rotation_z(angle)`. -/
noncomputable def fromRotationZ (angle : ℝ) : Quat :=
  ⟨Real.cos (angle / 2), 0, 0, Real.sin (angle / 2)⟩

/-- glam `Quat::from_euler(EulerRot::YXZ, yaw, pitch, roll)`:
the composition `Ry(yaw) * Rx(pitch) * Rz(roll)`. -/
noncomputable def fromEulerYXZ (yaw pitch roll : ℝ) : Quat :=
  fromRotationY yaw * fromRotationX pitch * fromRotationZ roll

/-- A `Vec3` as a pure-imaginary quaternion. -/
def Vec3.toQuat (v : Vec3) : Quat := ⟨0, v.x, v.y, v.z⟩

/-- glam `Quat * Vec3` (rotation of a vector by a quaternion): the vector
part of `q * v * star q`, which agrees with glam's `mul_vec3`
cross-product formula for every quaternion. -/
def rotateVec (q : Quat) (v : Vec3) : Vec3 :=
  ⟨(q * v.toQuat * star q).imI, (q * v.toQuat * star q).imJ, (q * v.toQuat * star q).imK⟩

/-- The y component of the camera-up vector `q * Vec3::Y`. -/
def upY (q : Quat) : ℝ := (rotateVec q ⟨0, 1, 0⟩).y

/-- glam `Mat3` (three column vectors). -/
structure Mat3 where
  x_axis : Vec3
  y_axis : Vec3
  z_axis : Vec3

/-- glam `Mat3::from_quat(q)`: the rotation matrix of a (unit) quaternion. -/
def Mat3.from_quat (q : Quat) : Mat3 :=
  let x2 := q.imI + q.imI
  let y2 := q.imJ + q.imJ
  let z2 := q.imK + q.imK
  let xx := q.imI * x2
  let xy := q.imI * y2
  let xz := q.imI * z2
  let yy := q.imJ * y2
  let yz := q.imJ * z2
  let zz := q.imK * z2
  let wx := q.re * x2
  let wy := q.re * y2
  let wz := q.re * z2
  { x_axis := ⟨1 - (yy + zz), xy + wz, xz - wy⟩
    y_axis := ⟨xy - wz, 1 - (xx + zz), yz + wx⟩
    z_axis := ⟨xz + wy, yz - wx, 1 - (xx + yy)⟩ }

/-- glam `Mat3::mul_vec3` (matrix of column vectors applied to a vector). -/
def Mat3.mul_vec3 (m : Mat3) (v : Vec3) : Vec3 :=
  m.x_axis.scale v.x + m.y_axis.scale v.y + m.z_axis.scale v.z

/-- bevy `Transform` (the scale field is carried along untouched by all of
this repository's systems). -/
structure Transform where
  translation : Vec3
  rotation : Quat
  scale : Vec3

/-- bevy `Query::get_single` / `single`: succeeds exactly when the query
matches exactly one entity; `expect`/`unwrap`/`single` panic otherwise
(modelled by `none`). -/
def getSingle {α : Type} (xs : List α) : Option α :=
  match xs with
  | [x] => some x
  | _ => none

/-- A fixed concrete transform (identity rotation, unit scale) used to
instantiate general theorems at a concrete input. -/
def idTransform : Transform := ⟨Vec3.zero, ⟨1, 0, 0, 0⟩, ⟨1, 1, 1⟩⟩

namespace Cam

/-- The `Camera` component from `src/camera.rs`. -/
structure Camera where
  distance : ℝ
  mouse_sensitivity : ℝ

/-- `Camera::default()` from `src/camera.rs`. -/
noncomputable def Camera.default : Camera :=
  { distance := 10
    mouse_sensitivity := 0.5 }

/-- `apply_zoom` from `src/camera.rs` at the component level: `scrolls`
are the frame's `MouseWheel` y values; their sum is the zoom delta, and
when it is nonzero the camera distance is set to
`max(distance - delta, 1)` (the camera query is only read in that
case). -/
noncomputable def apply_zoom (scrolls : List ℝ) (cam : Camera) : Camera :=
  let delta := scrolls.foldl (fun sum i => sum + i) 0
  if delta ≠ 0 then { cam with distance := max (cam.distance - delta) 1 } else cam

open Classical in
/-- `orbit_camera` from `src/camera.rs` on the singleton query results:
`window` is the primary window size (width, height), `mouse_motions` the
frame's `MouseMotion` deltas.  Returns the new camera transform. -/
noncomputable def orbit_camera (window : Vec2) (cam_transform : Transform) (cam : Camera)
    (player_transform : Transform) (mouse_motions : List Vec2) : Transform :=
  -- sum all mouse motions since the last frame
  let mouse_delta := mouse_motions.foldl (fun sum i => sum + i) Vec2.zero
  -- make sure the camera can't go inside the player (this write is
  -- overwritten by the unconditional translation assignment below)
  let _translation0 :=
    if cam_transform.translation = player_transform.translation then
      { cam_transform.translation with x := cam_transform.translation.x + cam.distance }
    else cam_transform.translation
  -- normalize mouse movements by the window size, then scale by the
  -- sensitivity and convert to radians
  let mdx := mouse_delta.x / window.x * (cam.mouse_sensitivity * 2 * π)
  let mdy := mouse_delta.y / window.y * (cam.mouse_sensitivity * 2 * π)
  -- if the mouse goes up rotate the cam down
  let pitch := fromRotationX (-mdy)
  -- if the mouse goes right, rotate the cam left
  let yaw := fromRotationY (-mdx)
  -- apply yaw
  let rot1 := yaw * cam_transform.rotation
  -- apply pitch only if the camera doesn't go too far
  let rot2 := if 0 < upY (rot1 * pitch) then rot1 * pitch else rot1
  -- rotate the cam around the player
  let rotation_matrix := Mat3.from_quat rot2
  { translation :=
      player_transform.translation + rotation_matrix.mul_vec3 ⟨0, 0, cam.distance⟩
    rotation := rot2
    scale := cam_transform.scale }

/-- The per-frame data the `src/camera.rs` systems can see, with a type
parameter for every component they do not query. -/
structure CamWorld (α : Type) where
  window : Vec2
  cam_transform : Transform
  cam : Camera
  player_transform : Transform
  others : α

/-- One `orbit_camera` frame as a whole-world update: the system's only
mutable query is the camera transform. -/
noncomputable def orbit_camera_world {α : Type} (w : CamWorld α)
    (mouse_motions : List Vec2) : CamWorld α :=
  { w with cam_transform :=
      orbit_camera w.window w.cam_transform w.cam w.player_transform mouse_motions }

/-- One `apply_zoom` frame as a whole-world update: the system's only
mutable query is the camera component. -/
noncomputable def apply_zoom_world {α : Type} (w : CamWorld α) (scrolls : List ℝ) :
    CamWorld α :=
  { w with cam := apply_zoom scrolls w.cam }

/-- The `orbit_camera` system of `src/camera.rs` at the ECS level: the
camera, player and primary-window singleton queries are `expect`ed in
that order; a failed `expect` (zero or several matches) is the panic,
modelled as `none`. -/
noncomputable def orbit_camera_system (windows : List Vec2)
    (cams : List (Transform × Camera)) (players : List Transform)
    (mouse_motions : List Vec2) : Option Transform :=
  match getSingle cams, getSingle players, getSingle windows with
  | some ct, some pt, some w => some (orbit_camera w ct.1 ct.2 pt mouse_motions)
  | _, _, _ => none

end Cam

namespace Controls

/-- The `MovementAction` event from `src/controls.rs`. -/
inductive MovementAction where
  | Move (direction : Vec2)
  | Jump

/-- One shape-cast hit as delivered by the physics plugin (`ShapeHits`);
only the hit normal is modelled, to state that the grounding decision
never looks at it. -/
structure ShapeHit where
  normal : Vec3

/-- The components of one entity that `update_grounded` can read or
write: the `Player` marker, the `ShapeHits` result of its ground caster,
and the `Grounded` marker. -/
structure CharState where
  is_player : Bool
  hits : List ShapeHit
  grounded : Bool

/-- `update_grounded` from `src/controls.rs` on one entity: for entities
with the `Player` marker, the `Grounded` marker is present afterwards
exactly when the shape caster reported at least one hit
(`hits.iter().next().is_some()`); other entities are not in the query. -/
def update_grounded (e : CharState) : CharState :=
  if e.is_player then { e with grounded := e.hits.head?.isSome } else e

/-- `update_grounded` over the whole world. -/
def update_grounded_sys (es : List CharState) : List CharState :=
  es.map update_grounded

/-- Rust `b as i8` cast to the physics scalar. -/
def boolToScalar (b : Bool) : ℝ := if b then 1 else 0

/-- glam `Vec2::clamp_length_max(max)`: rescales the vector to length
`max` when its squared length exceeds `max * max`. -/
noncomputable def clamp_length_max (v : Vec2) (max0 : ℝ) : Vec2 :=
  let length_sq := v.length_squared
  if max0 * max0 < length_sq then
    ⟨v.x * (max0 / Real.sqrt length_sq), v.y * (max0 / Real.sqrt length_sq)⟩
  else v

/-- The clamped WASD direction computed by `keyboard_input` in
`src/controls.rs` (`w s a d` = the four keys being pressed). -/
noncomputable def keyboard_direction (w s a d : Bool) : Vec2 :=
  let up := w
  let down := s
  let left := a
  let right := d
  let horizontal := boolToScalar right - boolToScalar left
  let vertical := boolToScalar up - boolToScalar down
  clamp_length_max ⟨horizontal, vertical⟩ 1

open Classical in
/-- `keyboard_input` from `src/controls.rs`: the `MovementAction` events
sent for one keyboard state (`w s a d`: currently pressed; `space`: just
pressed), in emission order. -/
noncomputable def keyboard_input (w s a d space : Bool) : List MovementAction :=
  let direction := keyboard_direction w s a d
  (if direction ≠ Vec2.zero then [MovementAction.Move direction] else [])
    ++ (if space then [MovementAction.Jump] else [])

/-- The body of `movement` from `src/controls.rs` for one event applied
to one player controller: `Move` integrates the acceleration into the x
and z velocity components; `Jump` sets the y velocity to the jump impulse
when the entity has the `Grounded` marker. -/
def movement_step (delta_time movement_acceleration jump_impulse : ℝ)
    (is_grounded : Bool) (event : MovementAction) (linear_velocity : Vec3) : Vec3 :=
  match event with
  | .Move direction =>
      { linear_velocity with
          x := linear_velocity.x + direction.x * movement_acceleration * delta_time
          z := linear_velocity.z - direction.y * movement_acceleration * delta_time }
  | .Jump =>
      if is_grounded then { linear_velocity with y := jump_impulse } else linear_velocity

/-- `apply_movement_damping` from `src/controls.rs` on one entity with a
`MovementDamping` component: x and z velocity are scaled by the damping
factor, y is untouched. -/
def apply_movement_damping (damping_factor : ℝ) (linear_velocity : Vec3) : Vec3 :=
  { linear_velocity with
      x := linear_velocity.x * damping_factor
      z := linear_velocity.z * damping_factor }

/-- `CAMERA_DISTANCE` from `orbit_camera` in `src/controls.rs`. -/
noncomputable def CAMERA_DISTANCE : ℝ := 10

/-- `SENSITIVITY` from `orbit_camera` in `src/controls.rs`. -/
noncomputable def SENSITIVITY : ℝ := 0.01

/-- Start of `PITCH_RANGE` from `orbit_camera` in `src/controls.rs`. -/
noncomputable def PITCH_RANGE_START : ℝ := -(π / 2 - 0.01)

/-- End of `PITCH_RANGE` from `orbit_camera` in `src/controls.rs`. -/
noncomputable def PITCH_RANGE_END : ℝ := π / 2 - 0.01

/-- Rust `f32::clamp(lo, hi)`. -/
noncomputable def fclamp (x lo hi : ℝ) : ℝ :=
  if x < lo then lo else if x > hi then hi else x

/-- `orbit_camera` from `src/controls.rs` on the two singleton query
results.  `(yaw0, pitch0, roll0)` is the result of
`camera.rotation.to_euler(EulerRot::YXZ)` — the euler extraction is glam
library code and is taken as an input here; the rest follows the source:
clamp the new pitch to `PITCH_RANGE`, rebuild the rotation, and place the
camera `CAMERA_DISTANCE` behind its forward direction from the player. -/
noncomputable def orbit_camera (player : Transform) (camera : Transform)
    (yaw0 pitch0 roll0 : ℝ) (mouse_movement0 : Vec2) : Transform :=
  -- Negate y axis because bevy is Y-up but mouse coordinates are Y-down
  let mouse_movement : Vec2 := ⟨mouse_movement0.x, -mouse_movement0.y⟩
  let delta_yaw := -mouse_movement.x * SENSITIVITY
  let delta_pitch := mouse_movement.y * SENSITIVITY
  -- Establish the new yaw and pitch, preventing the pitch value from
  -- exceeding our limits
  let pitch := fclamp (pitch0 + delta_pitch) PITCH_RANGE_START PITCH_RANGE_END
  let yaw := yaw0 + delta_yaw
  -- Apply the rotation
  let rotation := fromEulerYXZ yaw pitch roll0
  -- Follow the player (`camera.forward()` of the just-written rotation)
  let fwd := rotateVec rotation ⟨0, 0, -1⟩
  { translation := player.translation - fwd.scale CAMERA_DISTANCE
    rotation := rotation
    scale := camera.scale }

/-- The per-frame data the `orbit_camera` system of `src/controls.rs` can
see, with a type parameter for every component it does not query. -/
structure ControlsWorld (α : Type) where
  player_transform : Transform
  cam_transform : Transform
  others : α

/-- One `orbit_camera` (controls.rs) frame as a whole-world update: the
player query is taken mutably but never written; only the camera
transform is written.  `toEuler` is glam's `to_euler(EulerRot::YXZ)`. -/
noncomputable def orbit_camera_world {α : Type} (toEuler : Quat → ℝ × ℝ × ℝ)
    (w : ControlsWorld α) (mouse_movement0 : Vec2) : ControlsWorld α :=
  let e := toEuler w.cam_transform.rotation
  { w with cam_transform :=
      orbit_camera w.player_transform w.cam_transform e.1 e.2.1 e.2.2 mouse_movement0 }

/-- The `orbit_camera` system of `src/controls.rs` at the ECS level: the
player and camera `single_mut()` calls panic (modelled by `none`) unless
each query matches exactly one entity. -/
noncomputable def orbit_camera_system (toEuler : Quat → ℝ × ℝ × ℝ)
    (players cameras : List Transform) (mouse_movement0 : Vec2) : Option Transform :=
  match getSingle players, getSingle cameras with
  | some p, some c =>
      let e := toEuler c.rotation
      some (orbit_camera p c e.1 e.2.1 e.2.2 mouse_movement0)
  | _, _ => none

end Controls

namespace Main

/-- The `Speed` component from `src/main.rs`. -/
structure Speed where
  value : ℝ

/-- bevy `Transform::forward()` (−Z rotated by the rotation). -/
def forward (t : Transform) : Vec3 := -(rotateVec t.rotation ⟨0, 0, 1⟩)

/-- bevy `Transform::back()`. -/
def back (t : Transform) : Vec3 := rotateVec t.rotation ⟨0, 0, 1⟩

/-- bevy `Transform::left()`. -/
def left (t : Transform) : Vec3 := -(rotateVec t.rotation ⟨1, 0, 0⟩)

/-- bevy `Transform::right()`. -/
def right (t : Transform) : Vec3 := rotateVec t.rotation ⟨1, 0, 0⟩

open Classical in
/-- glam `Vec3::normalize_or_zero()`. -/
noncomputable def normalize_or_zero (v : Vec3) : Vec3 :=
  if v.length_squared = 0 then Vec3.zero
  else v.scale (1 / Real.sqrt v.length_squared)

/-- `player_movement` from `src/main.rs` on the singleton query results:
sums the camera-relative direction vectors of the pressed WASD keys,
zeroes the y component, normalizes, and advances the player translation
by `speed * delta_seconds` along it. -/
noncomputable def player_movement (delta_seconds : ℝ)
    (player_transform : Transform) (player_speed : Speed) (camera : Transform)
    (w a s d : Bool) : Transform :=
  let direction0 := Vec3.zero
  let direction1 := if w then direction0 + forward camera else direction0
  let direction2 := if a then direction1 + left camera else direction1
  let direction3 := if s then direction2 + back camera else direction2
  let direction4 := if d then direction3 + right camera else direction3
  let direction := { direction4 with y := 0 }
  let movement := ((normalize_or_zero direction).scale player_speed.value).scale delta_seconds
  { player_transform with translation := player_transform.translation + movement }

/-- The `player_movement` system of `src/main.rs` at the ECS level: the
player query is `expect`ed and the camera query failure runs
`Err(..).unwrap()` — both are panics on zero or several matches,
modelled as `none`. -/
noncomputable def player_movement_system (delta_seconds : ℝ)
    (players : List (Transform × Speed)) (cameras : List Transform)
    (w a s d : Bool) : Option Transform :=
  match getSingle players, getSingle cameras with
  | some ps, some c => some (player_movement delta_seconds ps.1 ps.2 c w a s d)
  | _, _ => none

end Main


/-! ### Helper lemmas -/

@[simp] theorem Vec2.add_fst (a b : Vec2) : (a + b).x = a.x + b.x := rfl

@[simp] theorem Vec2.add_snd (a b : Vec2) : (a + b).y = a.y + b.y := rfl

@[simp] theorem Vec3.add_x (a b : Vec3) : (a + b).x = a.x + b.x := rfl

@[simp] theorem Vec3.add_y (a b : Vec3) : (a + b).y = a.y + b.y := rfl

@[simp] theorem Vec3.add_z (a b : Vec3) : (a + b).z = a.z + b.z := rfl

@[simp] theorem Vec3.sub_x (a b : Vec3) : (a - b).x = a.x - b.x := rfl

@[simp] theorem Vec3.sub_y (a b : Vec3) : (a - b).y = a.y - b.y := rfl

@[simp] theorem Vec3.sub_z (a b : Vec3) : (a - b).z = a.z - b.z := rfl

@[simp] theorem Vec3.scale_x (a : Vec3) (c : ℝ) : (a.scale c).x = a.x * c := rfl

@[simp] theorem Vec3.scale_y (a : Vec3) (c : ℝ) : (a.scale c).y = a.y * c := rfl

@[simp] theorem Vec3.scale_z (a : Vec3) (c : ℝ) : (a.scale c).z = a.z * c := rfl

theorem Vec2.eq_iff {a b : Vec2} : a = b ↔ a.x = b.x ∧ a.y = b.y := by
  constructor
  · rintro rfl; exact ⟨rfl, rfl⟩
  · rcases a with ⟨ax, ay⟩; rcases b with ⟨bx, by0⟩
    rintro ⟨h1, h2⟩
    simp only at h1 h2
    rw [h1, h2]

theorem Vec3.ext_iff {a b : Vec3} : a = b ↔ a.x = b.x ∧ a.y = b.y ∧ a.z = b.z := by
  constructor
  · rintro rfl; exact ⟨rfl, rfl, rfl⟩
  · rcases a with ⟨ax, ay, az⟩; rcases b with ⟨bx, by0, bz⟩
    rintro ⟨h1, h2, h3⟩
    simp only at h1 h2 h3
    rw [h1, h2, h3]

theorem upY_formula (q : Quat) :
    upY q = q.re ^ 2 + q.imJ ^ 2 - q.imI ^ 2 - q.imK ^ 2 := by
  rcases q with ⟨w, x, y, z⟩
  simp [upY, rotateVec, Vec3.toQuat, Quaternion.mul_imJ]
  ring

theorem normSq_fromRotationX (angle : ℝ) :
    Quaternion.normSq (fromRotationX angle) = 1 := by
  simp [fromRotationX, Quaternion.normSq_def']

theorem normSq_fromRotationY (angle : ℝ) :
    Quaternion.normSq (fromRotationY angle) = 1 := by
  simp [fromRotationY, Quaternion.normSq_def']

theorem normSq_fromRotationZ (angle : ℝ) :
    Quaternion.normSq (fromRotationZ angle) = 1 := by
  simp [fromRotationZ, Quaternion.normSq_def']

/-- Rotating a vector by any quaternion scales its squared length by
`normSq q ^ 2` (so unit quaternions preserve length). -/
theorem length_squared_rotateVec (q : Quat) (v : Vec3) :
    (rotateVec q v).length_squared = Quaternion.normSq q ^ 2 * v.length_squared := by
  have hre : (q * v.toQuat * star q).re = 0 := by
    rcases q with ⟨w, x, y, z⟩
    simp [Vec3.toQuat, Quaternion.mul_re]
    ring
  have hns : Quaternion.normSq (q * v.toQuat * star q)
      = Quaternion.normSq q ^ 2 * Quaternion.normSq v.toQuat := by
    rw [map_mul, map_mul, Quaternion.normSq_star]
    ring
  have hv : Quaternion.normSq v.toQuat = v.length_squared := by
    simp [Vec3.toQuat, Quaternion.normSq_def', Vec3.length_squared]
    ring
  have hexp : Quaternion.normSq (q * v.toQuat * star q)
      = (q * v.toQuat * star q).re ^ 2 + (rotateVec q v).length_squared := by
    rw [Quaternion.normSq_def']
    simp [rotateVec, Vec3.length_squared]
    ring
  rw [hexp, hre] at hns
  rw [← hv]
  linarith [hns]

theorem upY_fromRotationY_mul (angle : ℝ) (q : Quat) :
    upY (fromRotationY angle * q) = upY q := by
  rcases q with ⟨w, x, y, z⟩
  have h := Real.sin_sq_add_cos_sq (angle / 2)
  simp only [upY_formula, fromRotationY, Quaternion.mul_re, Quaternion.mul_imI,
    Quaternion.mul_imJ, Quaternion.mul_imK]
  linear_combination (w ^ 2 + y ^ 2 - x ^ 2 - z ^ 2) * h

/-- The up vector of a pure yaw-then-pitch rotation has y component
`cos pitch`. -/
theorem upY_yaw_pitch (a p : ℝ) :
    upY (fromRotationY a * fromRotationX p) = Real.cos p := by
  have ha := Real.sin_sq_add_cos_sq (a / 2)
  have hp := Real.cos_two_mul' (p / 2)
  rw [show 2 * (p / 2) = p by ring] at hp
  simp only [upY_formula, fromRotationY, fromRotationX, Quaternion.mul_re, Quaternion.mul_imI,
    Quaternion.mul_imJ, Quaternion.mul_imK]
  linear_combination (Real.cos (p / 2) ^ 2 - Real.sin (p / 2) ^ 2) * ha - hp

theorem getSingle_eq_none {α : Type} (xs : List α) :
    getSingle xs = none ↔ xs.length ≠ 1 := by
  rcases xs with _ | ⟨x, _ | ⟨y, t⟩⟩ <;> simp [getSingle]

theorem length_of_getSingle_eq_some {α : Type} {xs : List α} {x : α}
    (h : getSingle xs = some x) : xs.length = 1 := by
  rcases xs with _ | ⟨a, _ | ⟨b, t⟩⟩ <;> simp [getSingle] at h ⊢

@[simp] theorem Vec3.neg_x (a : Vec3) : (-a).x = -a.x := rfl

@[simp] theorem Vec3.neg_y (a : Vec3) : (-a).y = -a.y := rfl

@[simp] theorem Vec3.neg_z (a : Vec3) : (-a).z = -a.z := rfl

theorem Vec3.add_sub_cancel_left (p u : Vec3) : (p + u) - p = u := by
  rw [Vec3.ext_iff]
  refine ⟨?_, ?_, ?_⟩ <;> simp

theorem Vec3.sub_sub_cancel_left (p u : Vec3) : (p - u) - p = -u := by
  rw [Vec3.ext_iff]
  refine ⟨?_, ?_, ?_⟩ <;> simp

theorem Vec3.length_squared_neg (u : Vec3) : (-u).length_squared = u.length_squared := by
  rcases u with ⟨ux, uy, uz⟩
  show -ux * -ux + -uy * -uy + -uz * -uz = ux * ux + uy * uy + uz * uz
  ring

theorem Vec3.length_squared_scale (u : Vec3) (c : ℝ) :
    (u.scale c).length_squared = c ^ 2 * u.length_squared := by
  simp [Vec3.length_squared, Vec3.scale]
  ring

/-- For a unit quaternion, glam's rotation matrix applied to a vector is
exactly quaternion conjugation. -/
theorem Mat3.from_quat_mul_vec3 (q : Quat) (hq : Quaternion.normSq q = 1) (v : Vec3) :
    (Mat3.from_quat q).mul_vec3 v = rotateVec q v := by
  rcases q with ⟨w, x, y, z⟩
  have h1 : w ^ 2 + x ^ 2 + y ^ 2 + z ^ 2 = 1 := by
    simpa [Quaternion.normSq_def'] using hq
  rw [Vec3.ext_iff]
  refine ⟨?_, ?_, ?_⟩
  · simp [Mat3.from_quat, Mat3.mul_vec3, rotateVec, Vec3.toQuat]
    linear_combination (-v.x) * h1
  · simp [Mat3.from_quat, Mat3.mul_vec3, rotateVec, Vec3.toQuat]
    linear_combination (-v.y) * h1
  · simp [Mat3.from_quat, Mat3.mul_vec3, rotateVec, Vec3.toQuat]
    linear_combination (-v.z) * h1

theorem normSq_fromEulerYXZ (yaw pitch roll : ℝ) :
    Quaternion.normSq (fromEulerYXZ yaw pitch roll) = 1 := by
  rw [fromEulerYXZ, map_mul, map_mul, normSq_fromRotationY, normSq_fromRotationX,
    normSq_fromRotationZ]
  ring

/-- The rotation written by `orbit_camera` (camera.rs) stays a unit
quaternion. -/
theorem Cam.normSq_orbit_camera_rotation (window : Vec2) (ct : Transform) (cam : Cam.Camera)
    (pt : Transform) (motions : List Vec2) (hq : Quaternion.normSq ct.rotation = 1) :
    Quaternion.normSq (Cam.orbit_camera window ct cam pt motions).rotation = 1 := by
  simp only [Cam.orbit_camera]
  split_ifs with h
  · rw [map_mul, map_mul, normSq_fromRotationY, normSq_fromRotationX, hq]
    ring
  · rw [map_mul, normSq_fromRotationY, hq]
    ring

/-- The pitch guard of `orbit_camera` (camera.rs) preserves a positive
camera-up y component. -/
theorem Cam.upY_orbit_camera_pos (window : Vec2) (ct : Transform) (cam : Cam.Camera)
    (pt : Transform) (motions : List Vec2) (hup : 0 < upY ct.rotation) :
    0 < upY (Cam.orbit_camera window ct cam pt motions).rotation := by
  simp only [Cam.orbit_camera]
  split_ifs with h
  · exact h
  · rw [upY_fromRotationY_mul]
    exact hup

/-- The translation written by `orbit_camera` (camera.rs) sits at distance
`cam.distance` from the player. -/
theorem Cam.orbit_camera_dist (window : Vec2) (ct : Transform) (cam : Cam.Camera)
    (pt : Transform) (motions : List Vec2) (hq : Quaternion.normSq ct.rotation = 1)
    (hd : 0 ≤ cam.distance) :
    Vec3.dist (Cam.orbit_camera window ct cam pt motions).translation pt.translation
      = cam.distance := by
  have hrot := Cam.normSq_orbit_camera_rotation window ct cam pt motions hq
  have htr : (Cam.orbit_camera window ct cam pt motions).translation
      = pt.translation + (Mat3.from_quat
          (Cam.orbit_camera window ct cam pt motions).rotation).mul_vec3
            ⟨0, 0, cam.distance⟩ := rfl
  rw [htr, Mat3.from_quat_mul_vec3 _ hrot, Vec3.dist, Vec3.add_sub_cancel_left,
    length_squared_rotateVec, hrot]
  rw [show (1:ℝ) ^ 2 * (Vec3.length_squared ⟨0, 0, cam.distance⟩) = cam.distance ^ 2 by
    simp [Vec3.length_squared]; ring]
  exact Real.sqrt_sq hd

/-- The translation written by `orbit_camera` (controls.rs) sits at
distance `CAMERA_DISTANCE` from the player. -/
theorem Controls.orbit_camera_dist_ten (player camera : Transform) (yaw0 pitch0 roll0 : ℝ)
    (mouse : Vec2) :
    Vec3.dist (Controls.orbit_camera player camera yaw0 pitch0 roll0 mouse).translation
      player.translation = Controls.CAMERA_DISTANCE := by
  simp only [Controls.orbit_camera]
  rw [Vec3.dist, Vec3.sub_sub_cancel_left, Vec3.length_squared_neg,
    Vec3.length_squared_scale, length_squared_rotateVec, normSq_fromEulerYXZ]
  rw [show Controls.CAMERA_DISTANCE ^ 2 * ((1:ℝ) ^ 2 * Vec3.length_squared ⟨0, 0, -1⟩)
      = Controls.CAMERA_DISTANCE ^ 2 by simp [Vec3.length_squared]]
  rw [Real.sqrt_sq (by rw [Controls.CAMERA_DISTANCE]; norm_num)]

theorem Vec2.ext_mk {ax ay bx by0 : ℝ} :
    (⟨ax, ay⟩ : Vec2) = ⟨bx, by0⟩ ↔ ax = bx ∧ ay = by0 := Vec2.eq_iff

/-- `clamp_length_max v 1` is zero exactly when `v` is zero. -/
theorem Controls.clamp_length_max_eq_zero_iff (v : Vec2) :
    Controls.clamp_length_max v 1 = Vec2.zero ↔ v = Vec2.zero := by
  rcases v with ⟨vx, vy⟩
  simp only [Controls.clamp_length_max, Vec2.length_squared]
  split_ifs with h
  · have hl : (0:ℝ) < vx * vx + vy * vy := by nlinarith
    have hs : 0 < Real.sqrt (vx * vx + vy * vy) := Real.sqrt_pos.mpr hl
    constructor
    · intro h0
      rw [Vec2.zero, Vec2.ext_mk] at h0
      rcases h0 with ⟨h1, h2⟩
      have hx : vx = 0 := by
        rcases mul_eq_zero.mp h1 with h3 | h3
        · exact h3
        · exact absurd h3 (by positivity)
      have hy : vy = 0 := by
        rcases mul_eq_zero.mp h2 with h3 | h3
        · exact h3
        · exact absurd h3 (by positivity)
      nlinarith
    · intro h0
      rw [Vec2.zero, Vec2.ext_mk] at h0
      rcases h0 with ⟨h1, h2⟩
      nlinarith
  · exact Iff.rfl

/-- `clamp_length_max v 1` has squared length at most 1. -/
theorem Controls.length_squared_clamp_le_one (v : Vec2) :
    (Controls.clamp_length_max v 1).length_squared ≤ 1 := by
  rcases v with ⟨vx, vy⟩
  simp only [Controls.clamp_length_max, Vec2.length_squared]
  split_ifs with h
  · have hl : (0:ℝ) < vx * vx + vy * vy := by nlinarith
    have hs : 0 < Real.sqrt (vx * vx + vy * vy) := Real.sqrt_pos.mpr hl
    have hsq : Real.sqrt (vx * vx + vy * vy) ^ 2 = vx * vx + vy * vy :=
      Real.sq_sqrt hl.le
    have heq : vx * (1 / Real.sqrt (vx * vx + vy * vy))
            * (vx * (1 / Real.sqrt (vx * vx + vy * vy)))
          + vy * (1 / Real.sqrt (vx * vx + vy * vy))
            * (vy * (1 / Real.sqrt (vx * vx + vy * vy)))
        = (vx * vx + vy * vy) / Real.sqrt (vx * vx + vy * vy) ^ 2 := by
      field_simp
    rw [heq, hsq, div_self hl.ne.symm]
  · linarith

/-- The result of `f32::clamp` lies between the bounds when they are
ordered. -/
theorem Controls.fclamp_mem (x lo hi : ℝ) (h : lo ≤ hi) :
    lo ≤ Controls.fclamp x lo hi ∧ Controls.fclamp x lo hi ≤ hi := by
  rw [Controls.fclamp]
  split_ifs with h1 h2
  · exact ⟨le_refl lo, h⟩
  · exact ⟨h, le_refl hi⟩
  · exact ⟨le_of_not_lt h1, le_of_not_lt h2⟩

theorem head?_isSome_iff {α : Type} (l : List α) : l.head?.isSome = true ↔ l ≠ [] := by
  cases l <;> simp

/-- One `apply_zoom` cannot take the distance below 1. -/
theorem Cam.apply_zoom_distance_ge (scrolls : List ℝ) (cam : Cam.Camera)
    (h : 1 ≤ cam.distance) : 1 ≤ (Cam.apply_zoom scrolls cam).distance := by
  simp only [Cam.apply_zoom]
  split_ifs with hδ
  · exact le_max_right _ _
  · exact h

theorem Cam.apply_zoom_foldl_ge (frames : List (List ℝ)) (cam : Cam.Camera)
    (h : 1 ≤ cam.distance) :
    1 ≤ (frames.foldl (fun c ds => Cam.apply_zoom ds c) cam).distance := by
  induction frames generalizing cam with
  | nil => exact h
  | cons f fs ih => exact ih _ (Cam.apply_zoom_distance_ge f cam h)

/-! ### Claims -/

/-- Claim C1: the camera distance never drops below 1.  From the default
camera (distance 10), any sequence of `apply_zoom` frames keeps
`distance ≥ 1`; a single `apply_zoom` with nonzero summed scroll delta
sets the distance to `max(distance - delta, 1)` and leaves the camera
unchanged when the summed delta is zero; and the only other camera.rs
system, `orbit_camera`, never writes the distance field — so
`distance ≥ 1` holds after every update. -/
theorem distance_clamp_C1 (frames : List (List ℝ)) (cam : Cam.Camera)
    (scrolls : List ℝ) (h : 1 ≤ cam.distance) {α : Type} (w : Cam.CamWorld α)
    (motions : List Vec2) :
    1 ≤ (frames.foldl (fun c ds => Cam.apply_zoom ds c) Cam.Camera.default).distance
      ∧ 1 ≤ (Cam.apply_zoom scrolls cam).distance
      ∧ (scrolls.foldl (fun sum i => sum + i) 0 = 0 → Cam.apply_zoom scrolls cam = cam)
      ∧ (scrolls.foldl (fun sum i => sum + i) 0 ≠ 0 →
          (Cam.apply_zoom scrolls cam).distance
            = max (cam.distance - scrolls.foldl (fun sum i => sum + i) 0) 1)
      ∧ (Cam.orbit_camera_world w motions).cam.distance = w.cam.distance := by
  refine ⟨?_, Cam.apply_zoom_distance_ge scrolls cam h, ?_, ?_, rfl⟩
  · exact Cam.apply_zoom_foldl_ge frames Cam.Camera.default
      (by rw [show Cam.Camera.default.distance = 10 from rfl]; norm_num)
  · intro h0
    simp only [Cam.apply_zoom]
    rw [if_neg (not_not_intro h0)]
  · intro h1
    simp only [Cam.apply_zoom]
    rw [if_pos h1]

/-- Witness for C1 at concrete inputs. -/
theorem distance_clamp_C1_witness :
    1 ≤ (Cam.apply_zoom [3]
          { distance := 5, mouse_sensitivity := 0.5 } : Cam.Camera).distance
      ∧ 1 ≤ (List.foldl (fun c ds => Cam.apply_zoom ds c)
          Cam.Camera.default [[3], []]).distance := by
  have h := distance_clamp_C1 [[3], []]
    { distance := 5, mouse_sensitivity := 0.5 } [3]
    (show (1:ℝ) ≤ 5 by norm_num)
    (⟨⟨800, 600⟩, idTransform, Cam.Camera.default, idTransform, ()⟩ : Cam.CamWorld Unit) []
  exact ⟨h.2.1, h.1⟩

/-- Claim C6: a `Move(direction)` event processed by the movement system
adds `direction.x * acceleration * delta_time` to the x velocity,
subtracts `direction.y * acceleration * delta_time` from the z velocity,
and leaves the y velocity unchanged. -/
theorem move_event_C6 (delta_time acc jump_impulse : ℝ) (g : Bool) (dir : Vec2) (v : Vec3) :
    (Controls.movement_step delta_time acc jump_impulse g
        (Controls.MovementAction.Move dir) v).x = v.x + dir.x * acc * delta_time
      ∧ (Controls.movement_step delta_time acc jump_impulse g
          (Controls.MovementAction.Move dir) v).z = v.z - dir.y * acc * delta_time
      ∧ (Controls.movement_step delta_time acc jump_impulse g
          (Controls.MovementAction.Move dir) v).y = v.y :=
  ⟨rfl, rfl, rfl⟩

/-- Claim C7: `apply_movement_damping` multiplies the x and z velocity
components by the damping factor and leaves the y component unchanged. -/
theorem damping_C7 (damping_factor : ℝ) (v : Vec3) :
    (Controls.apply_movement_damping damping_factor v).x = v.x * damping_factor
      ∧ (Controls.apply_movement_damping damping_factor v).z = v.z * damping_factor
      ∧ (Controls.apply_movement_damping damping_factor v).y = v.y :=
  ⟨rfl, rfl, rfl⟩

/-- Claim C8: a `Jump` event sets (not adds to) the y velocity to the
jump impulse exactly when the entity is `Grounded`; an ungrounded entity
is left entirely unchanged, and x/z velocity are never changed. -/
theorem jump_event_C8 (delta_time acc jump_impulse : ℝ) (v : Vec3) :
    (Controls.movement_step delta_time acc jump_impulse true
        Controls.MovementAction.Jump v).y = jump_impulse
      ∧ (Controls.movement_step delta_time acc jump_impulse true
          Controls.MovementAction.Jump v).x = v.x
      ∧ (Controls.movement_step delta_time acc jump_impulse true
          Controls.MovementAction.Jump v).z = v.z
      ∧ Controls.movement_step delta_time acc jump_impulse false
          Controls.MovementAction.Jump v = v :=
  ⟨rfl, rfl, rfl, rfl⟩

/-- Claim C10: the orbit-camera systems write only the camera transform:
the player transform, the camera component (distance and sensitivity),
the window, and all other components are unchanged by a frame of either
orbit system (controls.rs takes the player query mutably but never
writes it). -/
theorem orbit_frame_effect_C10 {α β : Type} (w : Cam.CamWorld α)
    (motions : List Vec2) (toEuler : Quat → ℝ × ℝ × ℝ)
    (w2 : Controls.ControlsWorld β) (mouse : Vec2) :
    (Cam.orbit_camera_world w motions).player_transform = w.player_transform
      ∧ (Cam.orbit_camera_world w motions).cam.distance = w.cam.distance
      ∧ (Cam.orbit_camera_world w motions).cam.mouse_sensitivity = w.cam.mouse_sensitivity
      ∧ (Cam.orbit_camera_world w motions).others = w.others
      ∧ (Cam.orbit_camera_world w motions).window = w.window
      ∧ (Controls.orbit_camera_world toEuler w2 mouse).player_transform
          = w2.player_transform
      ∧ (Controls.orbit_camera_world toEuler w2 mouse).others = w2.others :=
  ⟨rfl, rfl, rfl, rfl, rfl, rfl, rfl⟩

/-- Claim C3: after every orbit-camera update the camera translation is
the player translation plus the (new) camera rotation applied to a
fixed-length offset, so the Euclidean camera–player distance equals the
configured distance: `cam.distance` in camera.rs (for a unit prior
rotation and nonnegative distance, as a bevy transform carries), and the
constant `CAMERA_DISTANCE = 10` in controls.rs for every input. -/
theorem camera_distance_C3 (window : Vec2) (ct : Transform) (cam : Cam.Camera)
    (pt : Transform) (motions : List Vec2)
    (hq : Quaternion.normSq ct.rotation = 1) (hd : 0 ≤ cam.distance)
    (player camera : Transform) (yaw0 pitch0 roll0 : ℝ) (mouse : Vec2) :
    Vec3.dist (Cam.orbit_camera window ct cam pt motions).translation pt.translation
        = cam.distance
      ∧ Vec3.dist
          (Controls.orbit_camera player camera yaw0 pitch0 roll0 mouse).translation
          player.translation = Controls.CAMERA_DISTANCE :=
  ⟨Cam.orbit_camera_dist window ct cam pt motions hq hd,
   Controls.orbit_camera_dist_ten player camera yaw0 pitch0 roll0 mouse⟩

/-- Witness for C3 at concrete inputs. -/
theorem camera_distance_C3_witness :
    Vec3.dist (Cam.orbit_camera ⟨800, 600⟩ idTransform Cam.Camera.default
          idTransform []).translation idTransform.translation
        = Cam.Camera.default.distance
      ∧ Vec3.dist (Controls.orbit_camera idTransform idTransform 0 0 0
          ⟨0, 0⟩).translation idTransform.translation = Controls.CAMERA_DISTANCE :=
  camera_distance_C3 ⟨800, 600⟩ idTransform Cam.Camera.default idTransform []
    (by simp [idTransform, Quaternion.normSq_def'])
    (show (0:ℝ) ≤ 10 by norm_num)
    idTransform idTransform 0 0 0 ⟨0, 0⟩

/-- Claim C4: after `update_grounded`, a `Player` entity carries the
`Grounded` marker exactly when its downward shape cast reported at least
one hit; the decision has no hysteresis (the prior `Grounded` state is
irrelevant), no debounce, and no hit-normal condition (any hit list with
the same nonemptiness — in particular with different normals — yields the
same marker). -/
theorem grounded_iff_hit_C4 (es : List Controls.CharState) (e2 : Controls.CharState)
    (he2 : e2 ∈ Controls.update_grounded_sys es)
    (e : Controls.CharState) (hp : e.is_player = true) (b : Bool)
    (hits2 : List Controls.ShapeHit) (hh : hits2 = [] ↔ e.hits = []) :
    (e2.is_player = true → (e2.grounded = true ↔ e2.hits ≠ []))
      ∧ (Controls.update_grounded { e with grounded := b }).grounded
          = (Controls.update_grounded e).grounded
      ∧ (Controls.update_grounded { e with hits := hits2 }).grounded
          = (Controls.update_grounded e).grounded := by
  refine ⟨?_, ?_, ?_⟩
  · simp only [Controls.update_grounded_sys, List.mem_map] at he2
    obtain ⟨e0, _, rfl⟩ := he2
    intro hpl
    by_cases h0 : e0.is_player
    · simp only [Controls.update_grounded, if_pos h0]
      exact head?_isSome_iff e0.hits
    · simp only [Controls.update_grounded, if_neg h0] at hpl ⊢
      exact absurd hpl h0
  · simp [Controls.update_grounded, hp]
  · simp only [Controls.update_grounded, hp, if_pos]
    have : (hits2.head?).isSome = (e.hits.head?).isSome := by
      cases h1 : hits2 <;> cases h2 : e.hits <;> simp_all
    simp [this]

/-- Witness for C4 at concrete inputs (two hit lists with different
normals, nonempty in both cases). -/
theorem grounded_iff_hit_C4_witness :
    ((Controls.update_grounded ⟨true, [⟨⟨0, 1, 0⟩⟩], false⟩).grounded = true
        ↔ (Controls.update_grounded ⟨true, [⟨⟨0, 1, 0⟩⟩], false⟩).hits ≠ [])
      ∧ (Controls.update_grounded
            { (⟨true, [⟨⟨0, 1, 0⟩⟩], false⟩ : Controls.CharState) with grounded := true }).grounded
          = (Controls.update_grounded ⟨true, [⟨⟨0, 1, 0⟩⟩], false⟩).grounded
      ∧ (Controls.update_grounded
            { (⟨true, [⟨⟨0, 1, 0⟩⟩], false⟩ : Controls.CharState) with
                hits := [⟨⟨1, 0, 0⟩⟩] }).grounded
          = (Controls.update_grounded ⟨true, [⟨⟨0, 1, 0⟩⟩], false⟩).grounded := by
  have h := grounded_iff_hit_C4 [⟨true, [⟨⟨0, 1, 0⟩⟩], false⟩]
    (Controls.update_grounded ⟨true, [⟨⟨0, 1, 0⟩⟩], false⟩)
    (by simp [Controls.update_grounded_sys])
    ⟨true, [⟨⟨0, 1, 0⟩⟩], false⟩ rfl true [⟨⟨1, 0, 0⟩⟩] (by simp)
  exact ⟨h.1 rfl, h.2.1, h.2.2⟩

/-- Claim C5: `keyboard_input` sends `Move(direction)` exactly when the
net WASD direction is nonzero — opposing keys cancel component-wise
(`direction` is zero exactly when the raw vector
`(d - a, w - s)` is) — the sent direction has length at most 1, `Jump` is
sent exactly when Space was just pressed, and at most two events are
emitted. -/
theorem keyboard_events_C5 (w s a d space : Bool) :
    (Controls.MovementAction.Move (Controls.keyboard_direction w s a d)
          ∈ Controls.keyboard_input w s a d space
        ↔ Controls.keyboard_direction w s a d ≠ Vec2.zero)
      ∧ (Controls.keyboard_direction w s a d = Vec2.zero
          ↔ (⟨Controls.boolToScalar d - Controls.boolToScalar a,
                Controls.boolToScalar w - Controls.boolToScalar s⟩ : Vec2) = Vec2.zero)
      ∧ (Controls.keyboard_direction w s a d).length_squared ≤ 1
      ∧ (Controls.MovementAction.Jump ∈ Controls.keyboard_input w s a d space
          ↔ space = true)
      ∧ (Controls.keyboard_input w s a d space).length ≤ 2 := by
  refine ⟨?_, ?_, ?_, ?_, ?_⟩
  · simp only [Controls.keyboard_input]
    split_ifs with h1 h2 <;> simp_all
  · simp only [Controls.keyboard_direction]
    exact Controls.clamp_length_max_eq_zero_iff _
  · simp only [Controls.keyboard_direction]
    exact Controls.length_squared_clamp_le_one _
  · simp only [Controls.keyboard_input]
    split_ifs with h1 h2 <;> simp_all
  · simp only [Controls.keyboard_input]
    split_ifs <;> simp

/-- Claim C9: every singleton-query system panics (modelled as `none`,
i.e. no state update is produced) exactly when a query does not match
exactly one entity: `player_movement` (main.rs) for the player and
camera queries, `orbit_camera` (camera.rs) for the camera, player and
primary-window queries, and `orbit_camera` (controls.rs) for the player
and camera queries. -/
theorem singleton_panic_C9
    (dt : ℝ) (players : List (Transform × Main.Speed)) (cameras : List Transform)
    (w a s d : Bool)
    (windows : List Vec2) (cams2 : List (Transform × Cam.Camera))
    (players2 : List Transform) (motions : List Vec2)
    (toEuler : Quat → ℝ × ℝ × ℝ) (players3 cameras3 : List Transform) (mouse : Vec2) :
    (Main.player_movement_system dt players cameras w a s d = none
        ↔ players.length ≠ 1 ∨ cameras.length ≠ 1)
      ∧ (Cam.orbit_camera_system windows cams2 players2 motions = none
          ↔ cams2.length ≠ 1 ∨ players2.length ≠ 1 ∨ windows.length ≠ 1)
      ∧ (Controls.orbit_camera_system toEuler players3 cameras3 mouse = none
          ↔ players3.length ≠ 1 ∨ cameras3.length ≠ 1) := by
  refine ⟨?_, ?_, ?_⟩
  · rcases h1 : getSingle players with _ | p
    · simp [Main.player_movement_system, h1]
      exact Or.inl ((getSingle_eq_none players).mp h1)
    · rcases h2 : getSingle cameras with _ | c
      · simp [Main.player_movement_system, h1, h2]
        exact Or.inr ((getSingle_eq_none cameras).mp h2)
      · simp [Main.player_movement_system, h1, h2]
        exact ⟨length_of_getSingle_eq_some h1, length_of_getSingle_eq_some h2⟩
  · rcases h1 : getSingle cams2 with _ | ct
    · simp [Cam.orbit_camera_system, h1]
      exact Or.inl ((getSingle_eq_none cams2).mp h1)
    · rcases h2 : getSingle players2 with _ | pt
      · simp [Cam.orbit_camera_system, h1, h2]
        exact Or.inr (Or.inl ((getSingle_eq_none players2).mp h2))
      · rcases h3 : getSingle windows with _ | win
        · simp [Cam.orbit_camera_system, h1, h2, h3]
          exact Or.inr (Or.inr ((getSingle_eq_none windows).mp h3))
        · simp [Cam.orbit_camera_system, h1, h2, h3]
          exact ⟨length_of_getSingle_eq_some h1, length_of_getSingle_eq_some h2,
            length_of_getSingle_eq_some h3⟩
  · rcases h1 : getSingle players3 with _ | p
    · simp [Controls.orbit_camera_system, h1]
      exact Or.inl ((getSingle_eq_none players3).mp h1)
    · rcases h2 : getSingle cameras3 with _ | c
      · simp [Controls.orbit_camera_system, h1, h2]
        exact Or.inr ((getSingle_eq_none cameras3).mp h2)
      · simp [Controls.orbit_camera_system, h1, h2]
        exact ⟨length_of_getSingle_eq_some h1, length_of_getSingle_eq_some h2⟩

/-- Claim C2: every orbit-camera update keeps the camera pitch strictly
inside `(-π/2, π/2)` (no gimbal flip).  controls.rs clamps the new pitch
into `[-(π/2 - 0.01), π/2 - 0.01]`, a subset of the open interval, for
every starting pitch and mouse delta, and the rebuilt rotation carries
exactly that clamped pitch; camera.rs applies the pitch rotation only
when the resulting camera up vector keeps a positive y component, a
property every update preserves, and for the roll-free yaw∘pitch
rotations the camera uses, a positive up-y is exactly a principal pitch
strictly inside `(-π/2, π/2)`. -/
theorem pitch_clamp_C2
    (p0 dp : ℝ) (_hp0 : p0 ∈ Set.Ioo (-(π / 2)) (π / 2))
    (player camera : Transform) (yaw0 roll0 : ℝ) (mouse : Vec2)
    (window : Vec2) (ct : Transform) (cam : Cam.Camera) (pt : Transform)
    (motions : List Vec2) (hup : 0 < upY ct.rotation)
    (a p1 : ℝ) (hp1 : p1 ∈ Set.Ioo (-(π / 2)) (π / 2))
    (b p2 : ℝ) (hp2 : p2 ∈ Set.Icc (-π) π)
    (hup2 : 0 < upY (fromRotationY b * fromRotationX p2)) :
    Controls.fclamp (p0 + dp) Controls.PITCH_RANGE_START Controls.PITCH_RANGE_END
        ∈ Set.Ioo (-(π / 2)) (π / 2)
      ∧ (Controls.orbit_camera player camera yaw0 p0 roll0 mouse).rotation
          = fromEulerYXZ (yaw0 + -mouse.x * Controls.SENSITIVITY)
              (Controls.fclamp (p0 + -mouse.y * Controls.SENSITIVITY)
                Controls.PITCH_RANGE_START Controls.PITCH_RANGE_END) roll0
      ∧ 0 < upY (Cam.orbit_camera window ct cam pt motions).rotation
      ∧ 0 < upY (fromRotationY a * fromRotationX p1)
      ∧ p2 ∈ Set.Ioo (-(π / 2)) (π / 2) := by
  have hpi := Real.pi_gt_three
  refine ⟨?_, ?_, Cam.upY_orbit_camera_pos window ct cam pt motions hup, ?_, ?_⟩
  · have hlohi : Controls.PITCH_RANGE_START ≤ Controls.PITCH_RANGE_END := by
      rw [Controls.PITCH_RANGE_START, Controls.PITCH_RANGE_END]
      norm_num
      linarith
    obtain ⟨hA, hB⟩ := Controls.fclamp_mem (p0 + dp) _ _ hlohi
    rw [Set.mem_Ioo]
    rw [Controls.PITCH_RANGE_START, Controls.PITCH_RANGE_END] at hA hB ⊢
    constructor <;> linarith
  · simp only [Controls.orbit_camera]
  · rw [upY_yaw_pitch]
    exact Real.cos_pos_of_mem_Ioo hp1
  · rw [upY_yaw_pitch] at hup2
    rw [Set.mem_Icc] at hp2
    rw [Set.mem_Ioo]
    constructor
    · by_contra hle
      push_neg at hle
      have hc : Real.cos p2 ≤ 0 := by
        rw [← Real.cos_neg]
        apply Real.cos_nonpos_of_pi_div_two_le_of_le
        · linarith
        · linarith [Real.pi_pos]
      linarith
    · by_contra hge
      push_neg at hge
      have hc : Real.cos p2 ≤ 0 := by
        apply Real.cos_nonpos_of_pi_div_two_le_of_le
        · linarith
        · linarith [Real.pi_pos]
      linarith

/-- Witness for C2 at concrete inputs. -/
theorem pitch_clamp_C2_witness :
    Controls.fclamp (0 + 0) Controls.PITCH_RANGE_START Controls.PITCH_RANGE_END
        ∈ Set.Ioo (-(π / 2)) (π / 2)
      ∧ 0 < upY (Cam.orbit_camera ⟨800, 600⟩ idTransform Cam.Camera.default
          idTransform []).rotation
      ∧ (0:ℝ) ∈ Set.Ioo (-(π / 2)) (π / 2) := by
  have h := pitch_clamp_C2 0 0
    (by rw [Set.mem_Ioo]; constructor <;> linarith [Real.pi_pos])
    idTransform idTransform 0 0 ⟨0, 0⟩
    ⟨800, 600⟩ idTransform Cam.Camera.default idTransform []
    (by simp [idTransform, upY_formula])
    0 0 (by rw [Set.mem_Ioo]; constructor <;> linarith [Real.pi_pos])
    0 0 (by rw [Set.mem_Icc]; constructor <;> linarith [Real.pi_pos])
    (by rw [upY_yaw_pitch, Real.cos_zero]; norm_num)
  exact ⟨h.1, h.2.2.1, h.2.2.2.2⟩

end Game
